import Mathlib

/-!
Shallow embedding of src/cron-server/server.js (winsports-cron).

The two core functions, fetchAndCacheOdds and postSettle, are modelled as
pure functions over an explicit environment that supplies the behaviour of
the external collaborators (the odds provider HTTP API, the document store,
and the settlement endpoint).  A collaborator call that can reject in the
JavaScript source is modelled as an Except String value provided by the
environment; awaiting a rejected promise corresponds to propagating the
error branch, and a try/catch corresponds to matching on it.

Each run additionally returns the ordered list of outbound side effects it
performed (network calls, document-store writes, delays), so that claims
about call counts, rate-limit delays and write behaviour can be stated.

Property access on the marketData object literal walks the JavaScript
prototype chain: besides the eight own taxonomy keys it finds the truthy
members every plain object inherits from the object prototype, and calling
push on such a member throws a TypeError that the per-event catch records
as an error.  objectProtoKeys lists those inherited names and mdPush
models the three resulting outcomes (append, throw, silent drop).

Not modelled: console logging, and the wall-clock duration string in the
results (real time).  JavaScript strings are Lean Strings; JSON numbers are
Lean rationals; a possibly-absent field is an Option.
-/

/-- Models the JavaScript expression String(x || d) where x is a
possibly-absent string and d a string default: the empty string is falsy. -/
def strOr (o : Option String) (d : String) : String :=
  match o with
  | none => d
  | some s => if s = "" then d else s

/-- Models the JavaScript expression Number(x || d) where x is a
possibly-absent number and d a number default: 0 is falsy. -/
def numOr (o : Option Rat) (d : Rat) : Rat :=
  match o with
  | none => d
  | some x => if x = 0 then d else x

/-- One event from the provider's events endpoint (fields used by the code). -/
structure Event where
  id : Option String
  sport_key : Option String
  home_team : Option String
  away_team : Option String
  commence_time : Option String

/-- One outcome inside a bookmaker market of an odds response. -/
structure Outcome where
  name : Option String
  description : Option String
  price : Option Rat
  point : Option Rat

/-- One market inside a bookmaker of an odds response.  A missing or
non-array outcomes field is modelled as none. -/
structure Market where
  key : Option String
  last_update : Option String
  outcomes : Option (List Outcome)

/-- One bookmaker of an odds response.  A missing or non-array markets
field is modelled as none. -/
structure Bookmaker where
  key : Option String
  title : Option String
  markets : Option (List Market)

/-- The body of a per-event odds response: oddsResponse.data followed by
the fallback to an empty object; a missing or non-array bookmakers field
is modelled as none. -/
structure OddsData where
  bookmakers : Option (List Bookmaker)

/-- The body of the events-endpoint response: either an array of events or
anything else (null, object, string, ...), which the code collapses to
an empty list via the Array.isArray check. -/
inductive EventsBody where
  | arr : List Event → EventsBody
  | nonArray : EventsBody

/-- A single quoted outcome as cached: the object literal built for each
outcome in the odds response. -/
structure MarketEntry where
  bookmaker : String
  selection : String
  description : String
  odds : Rat
  point : Option Rat
  lastUpdated : String
deriving DecidableEq

/-- The marketData object: a fixed record with the eight taxonomy keys,
each holding its ordered list of entries. -/
structure MarketData where
  h2h : List MarketEntry
  totals : List MarketEntry
  player_shots_on_goal : List MarketEntry
  player_goals : List MarketEntry
  player_assists : List MarketEntry
  player_points : List MarketEntry
  player_goal_scorer_anytime : List MarketEntry
  player_goal_scorer_first : List MarketEntry
deriving DecidableEq

/-- The eight fixed market-taxonomy keys, in source order. -/
def taxonomyKeys : List String :=
  ["h2h", "totals", "player_shots_on_goal", "player_goals", "player_assists",
   "player_points", "player_goal_scorer_anytime", "player_goal_scorer_first"]

/-- The initial marketData object: all eight keys mapped to empty lists. -/
def emptyMarketData : MarketData :=
  { h2h := [], totals := [], player_shots_on_goal := [], player_goals := [],
    player_assists := [], player_points := [], player_goal_scorer_anytime := [],
    player_goal_scorer_first := [] }

/-- Own-property lookup on the marketData object: some list when k is one
of the eight keys the object literal declares — exactly the keys that get
serialized into the cache document — and none otherwise.  Full JavaScript
property access marketData[k] additionally sees the truthy members
inherited from the object prototype; that complete lookup is what mdPush
models. -/
def mdLookup (m : MarketData) (k : String) : Option (List MarketEntry) :=
  if k = "h2h" then some m.h2h
  else if k = "totals" then some m.totals
  else if k = "player_shots_on_goal" then some m.player_shots_on_goal
  else if k = "player_goals" then some m.player_goals
  else if k = "player_assists" then some m.player_assists
  else if k = "player_points" then some m.player_points
  else if k = "player_goal_scorer_anytime" then some m.player_goal_scorer_anytime
  else if k = "player_goal_scorer_first" then some m.player_goal_scorer_first
  else none

/-- The property names a plain JavaScript object literal inherits from the
object prototype.  Property access on marketData yields a truthy function
(or, for the prototype accessor, an object) for each of these, and none of
them has a push method. -/
def objectProtoKeys : List String :=
  ["constructor", "hasOwnProperty", "isPrototypeOf", "propertyIsEnumerable",
   "toLocaleString", "toString", "valueOf", "__proto__",
   "__defineGetter__", "__defineSetter__", "__lookupGetter__", "__lookupSetter__"]

/-- The guarded push at the heart of the market loop: property access
marketData[marketKey] walks the prototype chain, so an own taxonomy key
passes the truthiness guard and the entry is appended to its list; a name
inherited from the object prototype also passes the guard but has no push
method, so the call throws a TypeError (modelled as an Except error with
the engine's message text); any other key looks up undefined, the guard
fails, and the entry is silently dropped. -/
def mdPush (m : MarketData) (k : String) (entry : MarketEntry) :
    Except String MarketData :=
  if k = "h2h" then Except.ok { m with h2h := m.h2h ++ [entry] }
  else if k = "totals" then Except.ok { m with totals := m.totals ++ [entry] }
  else if k = "player_shots_on_goal" then
    Except.ok { m with player_shots_on_goal := m.player_shots_on_goal ++ [entry] }
  else if k = "player_goals" then
    Except.ok { m with player_goals := m.player_goals ++ [entry] }
  else if k = "player_assists" then
    Except.ok { m with player_assists := m.player_assists ++ [entry] }
  else if k = "player_points" then
    Except.ok { m with player_points := m.player_points ++ [entry] }
  else if k = "player_goal_scorer_anytime" then
    Except.ok { m with player_goal_scorer_anytime := m.player_goal_scorer_anytime ++ [entry] }
  else if k = "player_goal_scorer_first" then
    Except.ok { m with player_goal_scorer_first := m.player_goal_scorer_first ++ [entry] }
  else if k ∈ objectProtoKeys then
    Except.error "marketData[marketKey].push is not a function"
  else Except.ok m

/-- The entry object built for one outcome of one market of one bookmaker. -/
def outcomeEntry (bookmakerKey lastUpdate : String) (o : Outcome) : MarketEntry :=
  { bookmaker := bookmakerKey,
    selection := strOr o.name "",
    description := strOr o.description "",
    odds := numOr o.price 0,
    point := o.point,
    lastUpdated := lastUpdate }

/-- The inner loop over one bookmaker market: each outcome's entry is
pushed under the market's key; a throwing push aborts the whole nested
loop and propagates to the per-event catch. -/
def processMarket (bookmakerKey : String) (md : MarketData) (m : Market) :
    Except String MarketData :=
  (m.outcomes.getD []).foldlM
    (fun acc o =>
      mdPush acc (strOr m.key "") (outcomeEntry bookmakerKey (strOr m.last_update "") o))
    md

/-- The loop over one bookmaker's markets. -/
def processBookmaker (md : MarketData) (b : Bookmaker) : Except String MarketData :=
  (b.markets.getD []).foldlM (processMarket (strOr b.key (strOr b.title "unknown"))) md

/-- Organizing the odds response by market: the nested loop over
bookmakers, markets and outcomes, starting from the empty marketData.  An
error is a TypeError thrown inside the loop by a push on an inherited
property. -/
def buildMarketData (od : OddsData) : Except String MarketData :=
  (od.bookmakers.getD []).foldlM processBookmaker emptyMarketData

/-- The per-event cache document written to the document store. -/
structure CacheDoc where
  eventId : String
  gameId : String
  homeTeam : String
  awayTeam : String
  commenceTime : String
  lastFetched : Nat
  markets : MarketData
deriving DecidableEq

/-- The cacheDoc object literal built from the event fields and the
assembled marketData. -/
def buildCacheDoc (now : Nat) (e : Event) (eventId : String) (md : MarketData) : CacheDoc :=
  { eventId := eventId,
    gameId := strOr e.sport_key "icehockey_nhl",
    homeTeam := strOr e.home_team "",
    awayTeam := strOr e.away_team "",
    commenceTime := strOr e.commence_time "",
    lastFetched := now,
    markets := md }

/-- One outbound side effect performed by a run of fetchAndCacheOdds:
the events fetch, a per-event odds fetch, a document-store write
(collection, document key, document), or a rate-limit delay in
milliseconds. -/
inductive Effect where
  | fetchEvents : Effect
  | fetchOdds : String → Effect
  | storeDoc : String → String → CacheDoc → Effect
  | delay : Nat → Effect
deriving DecidableEq

/-- One element of the results array: the object with eventId and
success true pushed after a successful store. -/
structure SuccessRec where
  eventId : String
  success : Bool
deriving DecidableEq

/-- One element of the errors array: the object with eventId and the
caught error message. -/
structure ErrorRec where
  eventId : String
  error : String
deriving DecidableEq

/-- The structured result object returned by fetchAndCacheOdds; a field
the source omits on a given return path is none.  The wall-clock duration
string is not modelled. -/
structure RunResult where
  ok : Bool
  error : Option String := none
  count : Option Nat := none
  errors : Option Nat := none
  message : Option String := none
  results : Option (List SuccessRec) := none
  errorDetails : Option (List ErrorRec) := none
deriving DecidableEq

/-- The environment of one fetchAndCacheOdds run: configuration plus the
behaviour of every collaborator call.  oddsCall i and storeCall i are the
outcomes of the odds fetch and of the document write attempted at loop
index i; an error value models a rejected promise (network error, non-2xx,
store failure). -/
structure OddsEnv where
  oddsApiKey : String
  dbReady : Bool
  eventsCall : Except String EventsBody
  oddsCall : Nat → Except String OddsData
  storeCall : Nat → Except String Unit
  now : Nat

/-- True when a collaborator call succeeded (the promise resolved). -/
def callOk {α : Type} (r : Except String α) : Bool :=
  match r with
  | Except.ok _ => true
  | Except.error _ => false

/-- One iteration of the per-event loop at index i out of total events:
returns the side effects performed, the results records pushed and the
errors records pushed by this iteration.  An event whose id is missing or
stringifies to the empty string is skipped before the try block; inside
the try, a failed odds fetch, a TypeError thrown while organizing the
response by market, or a failed store jumps to the catch, which records
the error and in particular skips the trailing rate-limit delay. -/
def stepEvent (env : OddsEnv) (total i : Nat) (e : Event) :
    List Effect × List SuccessRec × List ErrorRec :=
  let eventId := strOr e.id ""
  if eventId = "" then ([], [], [])
  else
    match env.oddsCall i with
    | Except.error msg => ([Effect.fetchOdds eventId], [], [⟨eventId, msg⟩])
    | Except.ok od =>
      match buildMarketData od with
      | Except.error msg => ([Effect.fetchOdds eventId], [], [⟨eventId, msg⟩])
      | Except.ok md =>
        let doc := buildCacheDoc env.now e eventId md
        let key := "nhl_" ++ eventId
        match env.storeCall i with
        | Except.error msg =>
          ([Effect.fetchOdds eventId, Effect.storeDoc "odds_cache" key doc], [], [⟨eventId, msg⟩])
        | Except.ok _ =>
          ([Effect.fetchOdds eventId, Effect.storeDoc "odds_cache" key doc]
             ++ (if i < total - 1 then [Effect.delay 1000] else []),
           [⟨eventId, true⟩], [])

/-- The per-event for loop, from index i over the remaining events;
concatenates the effects and the pushed records of each iteration. -/
def processEvents (env : OddsEnv) (total : Nat) :
    List Event → Nat → List Effect × List SuccessRec × List ErrorRec
  | [], _ => ([], [], [])
  | e :: rest, i =>
    let s := stepEvent env total i e
    let r := processEvents env total rest (i + 1)
    (s.1 ++ r.1, s.2.1 ++ r.2.1, s.2.2 ++ r.2.2)

/-- The fetchAndCacheOdds entry point: configuration guards, the events
fetch (with the Array.isArray fallback to an empty list and the early
no-events success), the per-event loop, the aggregate result, and the
surrounding try/catch that converts any uncaught rejection into an
ok false result.  Returns the ordered side effects with the result. -/
def fetchAndCacheOdds (env : OddsEnv) : List Effect × RunResult :=
  if env.oddsApiKey = "" then
    ([], { ok := false, error := some "Missing ODDS_API_KEY" })
  else if env.dbReady = false then
    ([], { ok := false, error := some "Firestore not initialized" })
  else
    match env.eventsCall with
    | Except.error msg => ([Effect.fetchEvents], { ok := false, error := some msg })
    | Except.ok body =>
      let events := match body with
        | EventsBody.arr es => es
        | EventsBody.nonArray => []
      if events.length = 0 then
        ([Effect.fetchEvents],
         { ok := true, count := some 0, message := some "No events found" })
      else
        let p := processEvents env events.length events 0
        (Effect.fetchEvents :: p.1,
         { ok := true,
           count := some p.2.1.length,
           errors := some p.2.2.length,
           results := some p.2.1,
           errorDetails := some p.2.2 })

/-- The event list a run works on, replaying the guards and the
Array.isArray fallback: empty whenever the loop is never entered. -/
def eventsOf (env : OddsEnv) : List Event :=
  if env.oddsApiKey = "" then []
  else if env.dbReady = false then []
  else
    match env.eventsCall with
    | Except.ok (EventsBody.arr es) => es
    | _ => []

/-- The outbound POST request built by postSettle: target URL, method,
content type, the shared-secret header value, and the serialized body. -/
structure SettleRequest where
  url : String
  method : String
  contentType : String
  settleSecretHeader : String
  body : String
deriving DecidableEq

/-- The response a fetch call resolves with: ok flag, status code, and the
outcome of reading the body text (which can itself reject). -/
structure FetchResponse where
  ok : Bool
  status : Nat
  textResult : Except String String

/-- The structured object returned by postSettle on a non-throwing path. -/
structure SettleResult where
  ok : Bool
  status : Option Nat := none
  body : Option String := none
  error : Option String := none
deriving DecidableEq

/-- The environment of one postSettle call: the two configuration values
and the behaviour of the fetch collaborator on the request it is given;
an error value models a rejected fetch promise. -/
structure SettleEnv where
  siteUrl : String
  settleSecret : String
  fetchCall : SettleRequest → Except String FetchResponse

/-- Models String.prototype.replace with the trailing-slashes pattern:
removes every trailing slash character. -/
def stripTrailingSlashes (s : String) : String :=
  String.mk ((s.data.reverse.dropWhile (fun c => c = '/')).reverse)

/-- Escaping of quote and backslash as performed by JSON.stringify on a
string value (control-character escapes are not needed for the ids
considered here). -/
def jsonEscapeChar (c : Char) : String :=
  if c = '"' then "\\\"" else if c = '\\' then "\\\\" else String.singleton c

/-- JSON string-content escaping, character by character. -/
def jsonEscape (s : String) : String :=
  String.join (s.data.map jsonEscapeChar)

/-- JSON.stringify(body) where body is the empty object when gameId is
absent or falsy (the empty string), and the one-field object with the
stringified game id otherwise. -/
def settleBody (gameId : Option String) : String :=
  match gameId with
  | none => "\x7b\x7d"
  | some g =>
    if g = "" then "\x7b\x7d"
    else "\x7b\"gameId\":\"" ++ jsonEscape g ++ "\"\x7d"

/-- The settlement URL: the configured base URL with trailing slashes
stripped, followed by the fixed settle path. -/
def settleUrl (env : SettleEnv) : String :=
  stripTrailingSlashes env.siteUrl ++ "/api/settle-game"

/-- The full POST request postSettle hands to fetch. -/
def settleRequest (env : SettleEnv) (gameId : Option String) : SettleRequest :=
  { url := settleUrl env,
    method := "POST",
    contentType := "application/json",
    settleSecretHeader := env.settleSecret,
    body := settleBody gameId }

/-- The postSettle entry point: the configuration guard, then one fetch of
the settlement endpoint and one body-text read.  There is no try/catch in
the source, so a rejected fetch or text read propagates as an Except
error.  Returns the list of requests actually issued with the outcome. -/
def postSettle (env : SettleEnv) (gameId : Option String) :
    List SettleRequest × Except String SettleResult :=
  if env.siteUrl = "" ∨ env.settleSecret = "" then
    ([], Except.ok { ok := false, error := some "Missing SITE_URL or SETTLE_SHARED_SECRET" })
  else
    let req := settleRequest env gameId
    match env.fetchCall req with
    | Except.error msg => ([req], Except.error msg)
    | Except.ok resp =>
      match resp.textResult with
      | Except.error msg => ([req], Except.error msg)
      | Except.ok t =>
        ([req], Except.ok { ok := resp.ok, status := some resp.status, body := some t })

/-- The per-event step at loop index i succeeds: the event has a usable
id, the odds fetch resolves, organizing the response throws no TypeError,
and the document write resolves. -/
def stepSucceeds (env : OddsEnv) (i : Nat) (e : Event) : Bool :=
  if strOr e.id "" = "" then false
  else
    match env.oddsCall i with
    | Except.error _ => false
    | Except.ok od => callOk (buildMarketData od) && callOk (env.storeCall i)

/-- The per-event step at loop index i fails (is recorded as an error):
the event has a usable id and the odds fetch rejects, organizing the
response throws, or the document write rejects. -/
def stepFails (env : OddsEnv) (i : Nat) (e : Event) : Bool :=
  if strOr e.id "" = "" then false
  else
    match env.oddsCall i with
    | Except.error _ => true
    | Except.ok od => !(callOk (buildMarketData od) && callOk (env.storeCall i))

/-- Number of per-event successes over a tail of the event list starting
at loop index i. -/
def countSucc (env : OddsEnv) : List Event → Nat → Nat
  | [], _ => 0
  | e :: rest, i => (if stepSucceeds env i e then 1 else 0) + countSucc env rest (i + 1)

/-- Number of per-event failures over a tail of the event list starting
at loop index i. -/
def countFail (env : OddsEnv) : List Event → Nat → Nat
  | [], _ => 0
  | e :: rest, i => (if stepFails env i e then 1 else 0) + countFail env rest (i + 1)

/-- Whether an effect is a rate-limit delay. -/
def isDelay : Effect → Bool
  | Effect.delay _ => true
  | _ => false

/-- Number of rate-limit delays in an effect trace. -/
def delayCount (acts : List Effect) : Nat := (acts.filter isDelay).length

/-- Number of delays the corrected rate-limiting behaviour predicts: one
for each successfully processed event that is not at the last loop index. -/
def countDelaysExpected (env : OddsEnv) (total : Nat) : List Event → Nat → Nat
  | [], _ => 0
  | e :: rest, i =>
    (if stepSucceeds env i e ∧ i < total - 1 then 1 else 0)
      + countDelaysExpected env total rest (i + 1)

theorem stepEvent_lengths (env : OddsEnv) (total i : Nat) (e : Event) :
    (stepEvent env total i e).2.1.length = (if stepSucceeds env i e then 1 else 0) ∧
    (stepEvent env total i e).2.2.length = (if stepFails env i e then 1 else 0) := by
  unfold stepEvent stepSucceeds stepFails
  by_cases hid : strOr e.id "" = ""
  · simp [hid]
  · cases ho : env.oddsCall i with
    | error msg => simp [hid, ho, callOk]
    | ok od =>
      cases hb : buildMarketData od with
      | error msg => simp [hid, ho, hb, callOk]
      | ok md =>
        cases hs : env.storeCall i with
        | error msg => simp [hid, ho, hb, hs, callOk]
        | ok u => simp [hid, ho, hb, hs, callOk]

theorem processEvents_lengths (env : OddsEnv) (total : Nat) :
    ∀ (es : List Event) (i : Nat),
      (processEvents env total es i).2.1.length = countSucc env es i ∧
      (processEvents env total es i).2.2.length = countFail env es i := by
  intro es
  induction es with
  | nil => intro i; simp [processEvents, countSucc, countFail]
  | cons e rest ih =>
    intro i
    have hstep := stepEvent_lengths env total i e
    have hr := ih (i + 1)
    constructor
    · simp [processEvents, countSucc, hstep.1, hr.1]
    · simp [processEvents, countFail, hstep.2, hr.2]

theorem stepEvent_delayCount (env : OddsEnv) (total i : Nat) (e : Event) :
    delayCount (stepEvent env total i e).1 =
      (if stepSucceeds env i e ∧ i < total - 1 then 1 else 0) := by
  unfold stepEvent stepSucceeds
  by_cases hid : strOr e.id "" = ""
  · simp [hid, delayCount]
  · cases ho : env.oddsCall i with
    | error msg => simp [hid, ho, callOk, delayCount, isDelay]
    | ok od =>
      cases hb : buildMarketData od with
      | error msg => simp [hid, ho, hb, callOk, delayCount, isDelay]
      | ok md =>
        cases hs : env.storeCall i with
        | error msg => simp [hid, ho, hb, hs, callOk, delayCount, isDelay]
        | ok u =>
          by_cases hlt : i < total - 1
          · simp [hid, ho, hb, hs, callOk, hlt, delayCount, isDelay]
          · simp [hid, ho, hb, hs, callOk, hlt, delayCount, isDelay]

theorem processEvents_delayCount (env : OddsEnv) (total : Nat) :
    ∀ (es : List Event) (i : Nat),
      delayCount (processEvents env total es i).1 = countDelaysExpected env total es i := by
  intro es
  induction es with
  | nil => intro i; simp [processEvents, countDelaysExpected, delayCount]
  | cons e rest ih =>
    intro i
    have hstep := stepEvent_delayCount env total i e
    have hr := ih (i + 1)
    simp [processEvents, countDelaysExpected, delayCount, List.filter_append] at *
    omega

theorem stepEvent_fetch_mem (env : OddsEnv) (total i : Nat) (e : Event)
    (h : strOr e.id "" ≠ "") :
    Effect.fetchOdds (strOr e.id "") ∈ (stepEvent env total i e).1 := by
  unfold stepEvent
  cases ho : env.oddsCall i with
  | error msg => simp [h, ho]
  | ok od =>
    cases hb : buildMarketData od with
    | error msg => simp [h, ho, hb]
    | ok md =>
      cases hs : env.storeCall i with
      | error msg => simp [h, ho, hb, hs]
      | ok u => simp [h, ho, hb, hs]

theorem processEvents_fetch_mem (env : OddsEnv) (total : Nat) :
    ∀ (es : List Event) (i j : Nat) (hj : j < es.length),
      strOr (es.get ⟨j, hj⟩).id "" ≠ "" →
      Effect.fetchOdds (strOr (es.get ⟨j, hj⟩).id "") ∈ (processEvents env total es i).1 := by
  intro es
  induction es with
  | nil => intro i j hj; exact absurd hj (Nat.not_lt_zero j)
  | cons e rest ih =>
    intro i j hj hne
    cases j with
    | zero =>
      have hmem := stepEvent_fetch_mem env total i e hne
      simp only [processEvents, List.mem_append]
      exact Or.inl hmem
    | succ j2 =>
      have hj2 : j2 < rest.length := Nat.lt_of_succ_lt_succ hj
      have hmem := ih (i + 1) j2 hj2 hne
      simp only [processEvents, List.mem_append]
      exact Or.inr hmem

/-- Well-formedness of the pushed records and effects of one iteration:
every record carries a nonempty event id, every odds fetch targets a
nonempty id, and every stored document has a nonempty event id. -/
theorem stepEvent_ids_nonempty (env : OddsEnv) (total i : Nat) (e : Event) :
    (∀ r ∈ (stepEvent env total i e).2.1, r.eventId ≠ "") ∧
    (∀ r ∈ (stepEvent env total i e).2.2, r.eventId ≠ "") ∧
    (∀ s, Effect.fetchOdds s ∈ (stepEvent env total i e).1 → s ≠ "") ∧
    (∀ c k d, Effect.storeDoc c k d ∈ (stepEvent env total i e).1 → d.eventId ≠ "") := by
  unfold stepEvent
  by_cases hid : strOr e.id "" = ""
  · simp [hid]
  · cases ho : env.oddsCall i with
    | error msg =>
      simp only [hid, if_neg hid, ho]
      refine ⟨by simp, ?_, ?_, ?_⟩
      · intro r hr
        simp at hr
        simp [hr, hid]
      · intro s hs
        simp at hs
        simp [hs, hid]
      · intro c k d hd
        simp at hd
    | ok od =>
      cases hb : buildMarketData od with
      | error msg =>
        simp only [hid, if_neg hid, ho, hb]
        refine ⟨by simp, ?_, ?_, ?_⟩
        · intro r hr
          simp at hr
          simp [hr, hid]
        · intro s hmem
          simp at hmem
          simp [hmem, hid]
        · intro c k d hd
          simp at hd
      | ok md =>
        cases hs : env.storeCall i with
        | error msg =>
          simp only [hid, if_neg hid, ho, hb, hs]
          refine ⟨by simp, ?_, ?_, ?_⟩
          · intro r hr
            simp at hr
            simp [hr, hid]
          · intro s hmem
            simp at hmem
            simp [hmem, hid]
          · intro c k d hd
            simp at hd
            simp [hd.2.2, buildCacheDoc, hid]
        | ok u =>
          simp only [hid, if_neg hid, ho, hb, hs]
          refine ⟨?_, by simp, ?_, ?_⟩
          · intro r hr
            simp at hr
            simp [hr, hid]
          · intro s hmem
            by_cases hlt : i < total - 1 <;>
              · simp [hlt] at hmem
                simp [hmem, hid]
          · intro c k d hd
            by_cases hlt : i < total - 1 <;>
              · simp [hlt] at hd
                simp [hd.2.2, buildCacheDoc, hid]

theorem processEvents_ids_nonempty (env : OddsEnv) (total : Nat) :
    ∀ (es : List Event) (i : Nat),
      (∀ r ∈ (processEvents env total es i).2.1, r.eventId ≠ "") ∧
      (∀ r ∈ (processEvents env total es i).2.2, r.eventId ≠ "") ∧
      (∀ s, Effect.fetchOdds s ∈ (processEvents env total es i).1 → s ≠ "") ∧
      (∀ c k d, Effect.storeDoc c k d ∈ (processEvents env total es i).1 → d.eventId ≠ "") := by
  intro es
  induction es with
  | nil => intro i; simp [processEvents]
  | cons e rest ih =>
    intro i
    have hstep := stepEvent_ids_nonempty env total i e
    have hr := ih (i + 1)
    refine ⟨?_, ?_, ?_, ?_⟩
    · intro r hmem
      rw [processEvents] at hmem
      rcases List.mem_append.mp hmem with h | h
      · exact hstep.1 r h
      · exact hr.1 r h
    · intro r hmem
      rw [processEvents] at hmem
      rcases List.mem_append.mp hmem with h | h
      · exact hstep.2.1 r h
      · exact hr.2.1 r h
    · intro s hmem
      rw [processEvents] at hmem
      rcases List.mem_append.mp hmem with h | h
      · exact hstep.2.2.1 s h
      · exact hr.2.2.1 s h
    · intro c k d hmem
      rw [processEvents] at hmem
      rcases List.mem_append.mp hmem with h | h
      · exact hstep.2.2.2 c k d h
      · exact hr.2.2.2 c k d h

theorem mdLookup_ne_none_iff (m : MarketData) (k : String) :
    mdLookup m k ≠ none ↔ k ∈ taxonomyKeys := by
  unfold mdLookup
  by_cases h1 : k = "h2h"
  · simp [h1, taxonomyKeys]
  · by_cases h2 : k = "totals"
    · simp [h1, h2, taxonomyKeys]
    · by_cases h3 : k = "player_shots_on_goal"
      · simp [h1, h2, h3, taxonomyKeys]
      · by_cases h4 : k = "player_goals"
        · simp [h1, h2, h3, h4, taxonomyKeys]
        · by_cases h5 : k = "player_assists"
          · simp [h1, h2, h3, h4, h5, taxonomyKeys]
          · by_cases h6 : k = "player_points"
            · simp [h1, h2, h3, h4, h5, h6, taxonomyKeys]
            · by_cases h7 : k = "player_goal_scorer_anytime"
              · simp [h1, h2, h3, h4, h5, h6, h7, taxonomyKeys]
              · by_cases h8 : k = "player_goal_scorer_first"
                · simp [h1, h2, h3, h4, h5, h6, h7, h8, taxonomyKeys]
                · simp [h1, h2, h3, h4, h5, h6, h7, h8, taxonomyKeys]

theorem mdPush_unrecognized (m : MarketData) (k : String) (entry : MarketEntry)
    (hk : k ∉ taxonomyKeys) (hp : k ∉ objectProtoKeys) :
    mdPush m k entry = Except.ok m := by
  simp only [taxonomyKeys, List.mem_cons, List.mem_singleton, not_or] at hk
  obtain ⟨h1, h2, h3, h4, h5, h6, h7, h8, -⟩ := hk
  unfold mdPush
  simp [h1, h2, h3, h4, h5, h6, h7, h8, hp]

theorem mdPush_proto_throws (m : MarketData) (k : String) (entry : MarketEntry)
    (hk : k ∉ taxonomyKeys) (hp : k ∈ objectProtoKeys) :
    mdPush m k entry = Except.error "marketData[marketKey].push is not a function" := by
  simp only [taxonomyKeys, List.mem_cons, List.mem_singleton, not_or] at hk
  obtain ⟨h1, h2, h3, h4, h5, h6, h7, h8, -⟩ := hk
  unfold mdPush
  simp [h1, h2, h3, h4, h5, h6, h7, h8, hp]

theorem countSucc_all_fail (env : OddsEnv) :
    ∀ (es : List Event) (i : Nat),
      (∀ e ∈ es, strOr e.id "" ≠ "") →
      (∀ j, callOk (env.oddsCall j) = false) →
      countSucc env es i = 0 ∧ countFail env es i = es.length := by
  intro es
  induction es with
  | nil => intro i _ _; simp [countSucc, countFail]
  | cons e rest ih =>
    intro i hids hfail
    have hide : strOr e.id "" ≠ "" := hids e (List.mem_cons_self e rest)
    have hr := ih (i + 1) (fun x hx => hids x (List.mem_cons_of_mem e hx)) hfail
    have hsf : stepSucceeds env i e = false ∧ stepFails env i e = true := by
      unfold stepSucceeds stepFails
      cases hoc : env.oddsCall i with
      | ok od =>
        have hcontra := hfail i
        simp [callOk, hoc] at hcontra
      | error m => simp [hide, hoc]
    simp [countSucc, countFail, hsf.1, hsf.2, hr.1, hr.2]
    omega

/-- A market whose key is outside both the taxonomy and the inherited
prototype names contributes nothing: every push of its outcomes is a
silent drop and the marketData object is returned unchanged. -/
theorem processMarket_unrecognized (bk : String) (md : MarketData) (m : Market)
    (hk : strOr m.key "" ∉ taxonomyKeys) (hp : strOr m.key "" ∉ objectProtoKeys) :
    processMarket bk md m = Except.ok md := by
  unfold processMarket
  induction m.outcomes.getD [] generalizing md with
  | nil => rfl
  | cons o rest ih =>
    rw [List.foldlM_cons, mdPush_unrecognized _ _ _ hk hp]
    exact ih md

/-- A one-event fixture: a fully successful run over one event with id e1. -/
def evA : Event :=
  { id := some "e1", sport_key := none, home_team := some "A",
    away_team := some "B", commence_time := none }

/-- Fixture event with id a. -/
def evC2a : Event :=
  { id := some "a", sport_key := none, home_team := none,
    away_team := none, commence_time := none }

/-- Fixture event with id b. -/
def evC2b : Event :=
  { id := some "b", sport_key := none, home_team := none,
    away_team := none, commence_time := none }

/-- Fixture event with id c. -/
def evC3c : Event :=
  { id := some "c", sport_key := none, home_team := none,
    away_team := none, commence_time := none }

/-- Fixture event without an id. -/
def evNoId : Event :=
  { id := none, sport_key := none, home_team := none,
    away_team := none, commence_time := none }

/-- Environment of a fully successful one-event run. -/
def envC1 : OddsEnv :=
  { oddsApiKey := "key", dbReady := true,
    eventsCall := Except.ok (EventsBody.arr [evA]),
    oddsCall := fun _ => Except.ok { bookmakers := none },
    storeCall := fun _ => Except.ok (),
    now := 0 }

/-- The cache document the envC1 run writes. -/
def docC1 : CacheDoc := buildCacheDoc 0 evA "e1" emptyMarketData

/-- C1: for every run of fetchAndCacheOdds, every cache document handed to
the document store maps exactly the eight fixed market-taxonomy keys to
lists (possibly empty), regardless of which markets the provider's odds
response contained: a key is present in the document's markets object iff
it is one of the eight taxonomy keys. -/
theorem cache_doc_taxonomy_complete (env : OddsEnv) (c k : String) (doc : CacheDoc)
    (_hmem : Effect.storeDoc c k doc ∈ (fetchAndCacheOdds env).1) :
    ∀ mk : String, (mdLookup doc.markets mk ≠ none ↔ mk ∈ taxonomyKeys) :=
  fun mk => mdLookup_ne_none_iff doc.markets mk

/-- Witness for C1: the one-event run writes its document, and that
document has the h2h and player_goal_scorer_first keys present. -/
theorem cache_doc_taxonomy_complete_witness :
    mdLookup docC1.markets "h2h" ≠ none ∧
    mdLookup docC1.markets "player_goal_scorer_first" ≠ none :=
  ⟨(cache_doc_taxonomy_complete envC1 "odds_cache" "nhl_e1" docC1 (by decide) "h2h").mpr
      (by decide),
   (cache_doc_taxonomy_complete envC1 "odds_cache" "nhl_e1" docC1 (by decide)
        "player_goal_scorer_first").mpr (by decide)⟩

/-- Environment of a two-event run whose first per-event step fails with a
handled network error and whose second step succeeds. -/
def envC2 : OddsEnv :=
  { oddsApiKey := "key", dbReady := true,
    eventsCall := Except.ok (EventsBody.arr [evC2a, evC2b]),
    oddsCall := fun i => if i = 0 then Except.error "network error"
                         else Except.ok { bookmakers := none },
    storeCall := fun _ => Except.ok (),
    now := 0 }

/-- C2 counterexample: a run over two events whose first per-event step
fails (handled: errors is 1, count is 1, the second event is still
processed) performs no rate-limit delay at all, although the claim
requires a delay between event 0 and event 1 even on a handled failure. -/
theorem delay_skipped_on_failure_cex :
    (fetchAndCacheOdds envC2).2.errors = some 1 ∧
    (fetchAndCacheOdds envC2).2.count = some 1 ∧
    (fetchAndCacheOdds envC2).1 =
      [Effect.fetchEvents, Effect.fetchOdds "a", Effect.fetchOdds "b",
       Effect.storeDoc "odds_cache" "nhl_b"
         (buildCacheDoc 0 evC2b "b" emptyMarketData)] ∧
    delayCount (fetchAndCacheOdds envC2).1 = 0 := by
  refine ⟨by decide, by decide, by decide, by decide⟩

/-- C2 amended: in every run of fetchAndCacheOdds, the fixed 1-second
delay is performed after the processing of event i exactly when i is not
the last loop index and event i's per-event step succeeded; on a handled
per-event failure (odds fetch, parse, or store) the delay IS skipped. -/
theorem delay_exactly_after_success (env : OddsEnv) :
    delayCount (fetchAndCacheOdds env).1 =
      countDelaysExpected env (eventsOf env).length (eventsOf env) 0 := by
  unfold fetchAndCacheOdds eventsOf
  by_cases hk : env.oddsApiKey = ""
  · simp [hk, delayCount, countDelaysExpected]
  · by_cases hd : env.dbReady = false
    · simp [hk, hd, delayCount, countDelaysExpected]
    · cases hev : env.eventsCall with
      | error msg => simp [hk, hd, hev, delayCount, countDelaysExpected, isDelay]
      | ok body =>
        cases body with
        | nonArray => simp [hk, hd, hev, delayCount, countDelaysExpected, isDelay]
        | arr es =>
          by_cases hlen : es.length = 0
          · have hnil : es = [] := List.length_eq_zero.mp hlen
            simp [hk, hd, hev, hlen, hnil, delayCount, countDelaysExpected, isDelay]
          · have hp := processEvents_delayCount env es.length es 0
            simp [hk, hd, hev, hlen, delayCount, isDelay] at hp ⊢
            exact hp

/-- Environment of a three-event run whose middle per-event step fails. -/
def envC3 : OddsEnv :=
  { oddsApiKey := "key", dbReady := true,
    eventsCall := Except.ok (EventsBody.arr [evC2a, evC2b, evC3c]),
    oddsCall := fun i => if i = 1 then Except.error "boom"
                         else Except.ok { bookmakers := none },
    storeCall := fun _ => Except.ok (),
    now := 0 }

/-- C3: when the events fetch yields a non-empty list, every event with a
usable id gets its odds fetch performed in list order regardless of which
earlier per-event steps failed, and the errors field of the aggregate
result equals exactly the number of events with an id whose per-event
step failed. -/
theorem failures_isolated_and_counted (env : OddsEnv) (es : List Event)
    (hkey : env.oddsApiKey ≠ "") (hdb : env.dbReady = true)
    (hev : env.eventsCall = Except.ok (EventsBody.arr es)) (hne : es.length ≠ 0) :
    (fetchAndCacheOdds env).2.errors = some (countFail env es 0) ∧
    ∀ j, (hj : j < es.length) → strOr (es.get ⟨j, hj⟩).id "" ≠ "" →
      Effect.fetchOdds (strOr (es.get ⟨j, hj⟩).id "") ∈ (fetchAndCacheOdds env).1 := by
  constructor
  · simp [fetchAndCacheOdds, hkey, hdb, hev, hne,
      (processEvents_lengths env es.length es 0).2]
  · intro j hj hid
    have hmem := processEvents_fetch_mem env es.length es 0 j hj hid
    simp only [fetchAndCacheOdds, hkey, hdb, hev, hne, if_neg, if_false]
    simp [hkey, hdb, hne]
    exact hmem

/-- Witness for C3: in the three-event run whose middle step fails, the
error count is 1 and the third event's odds fetch is still performed. -/
theorem failures_isolated_and_counted_witness :
    (fetchAndCacheOdds envC3).2.errors = some 1 ∧
    Effect.fetchOdds "c" ∈ (fetchAndCacheOdds envC3).1 := by
  have h := failures_isolated_and_counted envC3 [evC2a, evC2b, evC3c]
    (by decide) rfl rfl (by decide)
  exact ⟨h.1.trans (by decide), h.2 2 (by decide) (by decide)⟩

/-- Environment of a postSettle call with full configuration whose fetch
collaborator rejects. -/
def envC4 : SettleEnv :=
  { siteUrl := "https://example.com", settleSecret := "sec",
    fetchCall := fun _ => Except.error "network down" }

/-- C4 counterexample: with both configuration values present and a
network failure, postSettle propagates the exception past its own
boundary instead of returning a structured ok false result object. -/
theorem postSettle_throws_cex :
    (postSettle envC4 (some "42")).2 = Except.error "network down" := by
  rfl

/-- C4 amended: fetchAndCacheOdds never throws past its boundary and every
failing run carries an error message, but postSettle returns a structured
result only on the missing-configuration path or when the network call and
body read resolve: a rejected fetch or body read propagates out of
postSettle (and is caught by its HTTP-route and cron callers instead). -/
theorem entry_points_error_boundary (envO : OddsEnv) (envS : SettleEnv) (g : Option String) :
    ((fetchAndCacheOdds envO).2.ok = false →
       (fetchAndCacheOdds envO).2.error.isSome = true) ∧
    (callOk (postSettle envS g).2 = false →
       envS.siteUrl ≠ "" ∧ envS.settleSecret ≠ "") := by
  constructor
  · intro hok
    unfold fetchAndCacheOdds at *
    by_cases hk : envO.oddsApiKey = ""
    · simp [hk] at hok ⊢
    · by_cases hd : envO.dbReady = false
      · simp [hk, hd] at hok ⊢
      · cases hev : envO.eventsCall with
        | error msg => simp [hk, hd, hev] at hok ⊢
        | ok body =>
          cases body with
          | nonArray => simp [hk, hd, hev] at hok
          | arr es =>
            by_cases hlen : es.length = 0
            · simp [hk, hd, hev, hlen] at hok
            · simp [hk, hd, hev, hlen] at hok
  · intro hthrow
    by_cases hcfg : envS.siteUrl = "" ∨ envS.settleSecret = ""
    · simp [postSettle, hcfg, callOk] at hthrow
    · push_neg at hcfg
      exact hcfg

/-- Environment with the odds API key missing. -/
def envC6o : OddsEnv :=
  { oddsApiKey := "", dbReady := true,
    eventsCall := Except.error "unused",
    oddsCall := fun _ => Except.error "unused",
    storeCall := fun _ => Except.error "unused",
    now := 0 }

/-- Witness for the amended C4: a run with the API key missing fails with
an error message present, and the throwing postSettle environment indeed
has both configuration values set. -/
theorem entry_points_error_boundary_witness :
    (fetchAndCacheOdds envC6o).2.error.isSome = true ∧
    (envC4.siteUrl ≠ "" ∧ envC4.settleSecret ≠ "") :=
  ⟨(entry_points_error_boundary envC6o envC4 none).1 (by decide),
   (entry_points_error_boundary envC6o envC4 none).2 (by decide)⟩

/-- Environment whose events endpoint returns a non-array body. -/
def envC5 : OddsEnv :=
  { oddsApiKey := "key", dbReady := true,
    eventsCall := Except.ok EventsBody.nonArray,
    oddsCall := fun _ => Except.error "unused",
    storeCall := fun _ => Except.error "unused",
    now := 0 }

/-- C5: when the events-endpoint body is not a list, the run treats the
event list as empty, performs only the events fetch (no per-event odds
fetch, no store), and returns success with count 0 and the no-events
message rather than an error. -/
theorem nonlist_events_treated_empty (env : OddsEnv)
    (hkey : env.oddsApiKey ≠ "") (hdb : env.dbReady = true)
    (hev : env.eventsCall = Except.ok EventsBody.nonArray) :
    (fetchAndCacheOdds env).1 = [Effect.fetchEvents] ∧
    (fetchAndCacheOdds env).2 =
      { ok := true, count := some 0, message := some "No events found" } := by
  simp [fetchAndCacheOdds, hkey, hdb, hev]

/-- Witness for C5 at a concrete non-array environment. -/
theorem nonlist_events_treated_empty_witness :
    (fetchAndCacheOdds envC5).1 = [Effect.fetchEvents] ∧
    (fetchAndCacheOdds envC5).2 =
      { ok := true, count := some 0, message := some "No events found" } :=
  nonlist_events_treated_empty envC5 (by decide) rfl rfl

/-- Settle environment with the base URL missing. -/
def envC6s : SettleEnv :=
  { siteUrl := "", settleSecret := "sec",
    fetchCall := fun _ => Except.error "unused" }

/-- C6: with required configuration absent (API key or document store for
fetchAndCacheOdds; base URL or shared secret for postSettle), each
function returns ok false with a descriptive error immediately, performing
zero outbound calls and zero document-store writes. -/
theorem missing_config_no_calls (envO : OddsEnv) (envS : SettleEnv) (g : Option String)
    (hO : envO.oddsApiKey = "" ∨ envO.dbReady = false)
    (hS : envS.siteUrl = "" ∨ envS.settleSecret = "") :
    ((fetchAndCacheOdds envO).1 = [] ∧ (fetchAndCacheOdds envO).2.ok = false ∧
       (fetchAndCacheOdds envO).2.error.isSome = true) ∧
    ((postSettle envS g).1 = [] ∧
       (postSettle envS g).2 =
         Except.ok { ok := false,
                     error := some "Missing SITE_URL or SETTLE_SHARED_SECRET" }) := by
  constructor
  · rcases hO with h | h
    · simp [fetchAndCacheOdds, h]
    · by_cases hk : envO.oddsApiKey = "" <;> simp [fetchAndCacheOdds, hk, h]
  · simp [postSettle, hS]

/-- Witness for C6 at concrete missing-configuration environments. -/
theorem missing_config_no_calls_witness :
    ((fetchAndCacheOdds envC6o).1 = [] ∧ (fetchAndCacheOdds envC6o).2.ok = false ∧
       (fetchAndCacheOdds envC6o).2.error.isSome = true) ∧
    ((postSettle envC6s none).1 = [] ∧
       (postSettle envC6s none).2 =
         Except.ok { ok := false,
                     error := some "Missing SITE_URL or SETTLE_SHARED_SECRET" }) :=
  missing_config_no_calls envC6o envC6s none (Or.inl rfl) (Or.inl rfl)

/-- Environment of a run over one id-less event followed by one event with
id x, all collaborator calls succeeding. -/
def envC7 : OddsEnv :=
  { oddsApiKey := "key", dbReady := true,
    eventsCall := Except.ok (EventsBody.arr [evNoId, evC3c]),
    oddsCall := fun _ => Except.ok { bookmakers := none },
    storeCall := fun _ => Except.ok (),
    now := 0 }

/-- C7: an event whose id is missing or stringifies to the empty string is
skipped entirely: its loop iteration performs no effect and pushes no
record, and consequently no odds fetch, no stored document, and no entry
of the success or error lists of any run ever carries an empty event id. -/
theorem idless_events_skipped (env : OddsEnv) :
    (∀ total i e, strOr e.id "" = "" → stepEvent env total i e = ([], [], [])) ∧
    (∀ r ∈ (fetchAndCacheOdds env).2.results.getD [], r.eventId ≠ "") ∧
    (∀ r ∈ (fetchAndCacheOdds env).2.errorDetails.getD [], r.eventId ≠ "") ∧
    (∀ s, Effect.fetchOdds s ∈ (fetchAndCacheOdds env).1 → s ≠ "") ∧
    (∀ c k d, Effect.storeDoc c k d ∈ (fetchAndCacheOdds env).1 → d.eventId ≠ "") := by
  refine ⟨?_, ?_⟩
  · intro total i e h
    unfold stepEvent
    simp [h]
  · unfold fetchAndCacheOdds
    by_cases hk : env.oddsApiKey = ""
    · simp [hk]
    · by_cases hd : env.dbReady = false
      · simp [hk, hd]
      · cases hev : env.eventsCall with
        | error msg => simp [hk, hd, hev]
        | ok body =>
          cases body with
          | nonArray => simp [hk, hd, hev]
          | arr es =>
            by_cases hlen : es.length = 0
            · simp [hk, hd, hev, hlen]
            · have hp := processEvents_ids_nonempty env es.length es 0
              refine ⟨?_, ?_, ?_, ?_⟩
              · intro r hr
                simp [hk, hd, hev, hlen] at hr
                exact hp.1 r hr
              · intro r hr
                simp [hk, hd, hev, hlen] at hr
                exact hp.2.1 r hr
              · intro s hs
                simp [hk, hd, hev, hlen] at hs
                exact hp.2.2.1 s hs
              · intro c k d hdm
                simp [hk, hd, hev, hlen] at hdm
                exact hp.2.2.2 c k d hdm

/-- Witness for C7: in the envC7 run (an id-less event then the event with
id c), the odds fetch for c happens and its id is nonempty. -/
theorem idless_events_skipped_witness :
    Effect.fetchOdds "c" ∈ (fetchAndCacheOdds envC7).1 ∧
    stepEvent envC7 2 0 evNoId = ([], [], []) ∧
    (fetchAndCacheOdds envC7).2.count = some 1 :=
  ⟨by decide, (idless_events_skipped envC7).1 2 0 evNoId (by decide), by decide⟩

/-- A fixture market entry for an unrecognized market key. -/
def entryC8 : MarketEntry :=
  { bookmaker := "bk", selection := "A", description := "",
    odds := 2, point := none, lastUpdated := "t" }

/-- A fixture market carrying the unrecognized key spreads. -/
def marketC8 : Market :=
  { key := some "spreads", last_update := some "t",
    outcomes := some [{ name := some "A", description := none,
                        price := some 2, point := none }] }

/-- A fixture odds response whose only market is keyed by the inherited
property name constructor. -/
def odC8 : OddsData :=
  { bookmakers := some
      [{ key := some "bk", title := none,
         markets := some
           [{ key := some "constructor", last_update := some "t",
              outcomes := some [{ name := some "A", description := none,
                                  price := some 2, point := none }] }] }] }

/-- Environment of a one-event run whose odds response carries only a
market keyed constructor, with a resolving store collaborator. -/
def envC8 : OddsEnv :=
  { oddsApiKey := "key", dbReady := true,
    eventsCall := Except.ok (EventsBody.arr [evA]),
    oddsCall := fun _ => Except.ok odC8,
    storeCall := fun _ => Except.ok (),
    now := 0 }

/-- C8 counterexample: an odds response whose only market key is the
out-of-taxonomy key constructor makes the per-event step fail, refuting
the claim that an unrecognized market key never causes the step to be
recorded as an error: property access on the marketData literal finds the
truthy inherited member, the push call throws a TypeError, and the catch
records the event as an error (errors 1, count 0) with no document
stored. -/
theorem unrecognized_market_error_cex :
    (fetchAndCacheOdds envC8).2.errors = some 1 ∧
    (fetchAndCacheOdds envC8).2.count = some 0 ∧
    (fetchAndCacheOdds envC8).2.errorDetails =
      some [⟨"e1", "marketData[marketKey].push is not a function"⟩] ∧
    (fetchAndCacheOdds envC8).1 = [Effect.fetchEvents, Effect.fetchOdds "e1"] := by
  refine ⟨by decide, by decide, by decide, by decide⟩

/-- C8 amended: an entry built for a bookmaker outcome whose market key is
outside the eight-key taxonomy is silently discarded — the push leaves
marketData unchanged so the entry appears in no list of any cache
document, the key is not among the document's keys, and a whole market so
keyed contributes nothing — unless the key is one of the property names
the marketData literal inherits from the object prototype (constructor,
toString, valueOf, ...): such a key passes the truthiness guard, the push
throws a TypeError, and the event's per-event step is recorded as an
error with exactly that error record and no stored document. -/
theorem unrecognized_market_dropped_or_error (md : MarketData) (k : String)
    (entry : MarketEntry) (bk : String) (m : Market)
    (hk : k ∉ taxonomyKeys) (hmk : strOr m.key "" ∉ taxonomyKeys)
    (hmp : strOr m.key "" ∉ objectProtoKeys)
    (env : OddsEnv) (total i : Nat) (e : Event) (od : OddsData) (msg : String)
    (hid : strOr e.id "" ≠ "") (hodds : env.oddsCall i = Except.ok od)
    (hbuild : buildMarketData od = Except.error msg) :
    (k ∉ objectProtoKeys → mdPush md k entry = Except.ok md) ∧
    (k ∈ objectProtoKeys →
       mdPush md k entry = Except.error "marketData[marketKey].push is not a function") ∧
    mdLookup md k = none ∧
    processMarket bk md m = Except.ok md ∧
    stepEvent env total i e =
      ([Effect.fetchOdds (strOr e.id "")], [], [⟨strOr e.id "", msg⟩]) := by
  refine ⟨fun hp => mdPush_unrecognized md k entry hk hp,
          fun hp => mdPush_proto_throws md k entry hk hp, ?_,
          processMarket_unrecognized bk md m hmk hmp, ?_⟩
  · by_contra h
    exact hk ((mdLookup_ne_none_iff md k).mp h)
  · unfold stepEvent
    simp [hid, hodds, hbuild]

/-- Witness for the amended C8: the plain unrecognized key spreads is
dropped silently, the inherited name constructor throws, and the concrete
envC8 step yields exactly one error record and no store. -/
theorem unrecognized_market_dropped_or_error_witness :
    mdPush emptyMarketData "spreads" entryC8 = Except.ok emptyMarketData ∧
    mdPush emptyMarketData "constructor" entryC8 =
      Except.error "marketData[marketKey].push is not a function" ∧
    mdLookup emptyMarketData "spreads" = none ∧
    processMarket "bk" emptyMarketData marketC8 = Except.ok emptyMarketData ∧
    stepEvent envC8 1 0 evA =
      ([Effect.fetchOdds "e1"], [],
       [⟨"e1", "marketData[marketKey].push is not a function"⟩]) := by
  have h1 := unrecognized_market_dropped_or_error emptyMarketData "spreads" entryC8
    "bk" marketC8 (by decide) (by decide) (by decide)
    envC8 1 0 evA odC8 "marketData[marketKey].push is not a function"
    (by decide) rfl (by rfl)
  have h2 := unrecognized_market_dropped_or_error emptyMarketData "constructor" entryC8
    "bk" marketC8 (by decide) (by decide) (by decide)
    envC8 1 0 evA odC8 "marketData[marketKey].push is not a function"
    (by decide) rfl (by rfl)
  exact ⟨h1.1 (by decide), h2.2.1 (by decide), h1.2.2.1, h1.2.2.2.1, h1.2.2.2.2⟩

/-- The fetch response of the concrete C9 environment. -/
def respC9 : FetchResponse :=
  { ok := true, status := 200, textResult := Except.ok "done" }

/-- Environment of a postSettle call with full configuration and a
resolving fetch collaborator. -/
def envC9 : SettleEnv :=
  { siteUrl := "https://example.com/", settleSecret := "sec",
    fetchCall := fun _ => Except.ok respC9 }

/-- C9: for a non-empty game id and both configuration values present,
postSettle issues exactly one POST to the settle path under the configured
base URL, with the shared secret in the x-settle-secret header and a body
that is exactly the one-field gameId JSON object, and returns the raw
response status and body text verbatim. -/
theorem postSettle_request_shape (env : SettleEnv) (g : String)
    (hu : env.siteUrl ≠ "") (hs : env.settleSecret ≠ "") (hg : g ≠ "")
    (resp : FetchResponse) (t : String)
    (hf : env.fetchCall (settleRequest env (some g)) = Except.ok resp)
    (ht : resp.textResult = Except.ok t) :
    (postSettle env (some g)).1 = [settleRequest env (some g)] ∧
    (settleRequest env (some g)).method = "POST" ∧
    (settleRequest env (some g)).url = stripTrailingSlashes env.siteUrl ++ "/api/settle-game" ∧
    (settleRequest env (some g)).settleSecretHeader = env.settleSecret ∧
    (settleRequest env (some g)).body = "\x7b\"gameId\":\"" ++ jsonEscape g ++ "\"\x7d" ∧
    (postSettle env (some g)).2 =
      Except.ok { ok := resp.ok, status := some resp.status, body := some t } := by
  have hcfg : ¬(env.siteUrl = "" ∨ env.settleSecret = "") := by simp [hu, hs]
  refine ⟨?_, rfl, rfl, rfl, ?_, ?_⟩
  · simp [postSettle, hcfg, hf, ht]
  · simp [settleRequest, settleBody, hg]
  · simp [postSettle, hcfg, hf, ht]

/-- Witness for C9 at the concrete game id 42: the body evaluates to the
exact JSON text and the raw status and body are returned. -/
theorem postSettle_request_shape_witness :
    ((postSettle envC9 (some "42")).1 = [settleRequest envC9 (some "42")] ∧
     (settleRequest envC9 (some "42")).method = "POST" ∧
     (settleRequest envC9 (some "42")).url =
       stripTrailingSlashes envC9.siteUrl ++ "/api/settle-game" ∧
     (settleRequest envC9 (some "42")).settleSecretHeader = envC9.settleSecret ∧
     (settleRequest envC9 (some "42")).body =
       "\x7b\"gameId\":\"" ++ jsonEscape "42" ++ "\"\x7d" ∧
     (postSettle envC9 (some "42")).2 =
       Except.ok { ok := respC9.ok, status := some respC9.status, body := some "done" }) ∧
    (settleRequest envC9 (some "42")).body = "\x7b\"gameId\":\"42\"\x7d" ∧
    (settleRequest envC9 (some "42")).url = "https://example.com/api/settle-game" :=
  ⟨postSettle_request_shape envC9 "42" (by decide) (by decide) (by decide)
      respC9 "done" rfl rfl,
   by decide, by decide⟩

/-- Environment of a two-event run in which every odds fetch rejects. -/
def envC10 : OddsEnv :=
  { oddsApiKey := "key", dbReady := true,
    eventsCall := Except.ok (EventsBody.arr [evC2a, evC2b]),
    oddsCall := fun _ => Except.error "provider down",
    storeCall := fun _ => Except.ok (),
    now := 0 }

/-- C10: when the events fetch succeeds with a non-empty list and every
per-event step fails (all events have ids, every odds fetch rejects), the
aggregate result still has ok true, with count 0 and errors equal to the
number of events: the overall success flag is independent of the
per-event error count. -/
theorem ok_true_despite_all_failures (env : OddsEnv) (es : List Event)
    (hkey : env.oddsApiKey ≠ "") (hdb : env.dbReady = true)
    (hev : env.eventsCall = Except.ok (EventsBody.arr es)) (hne : es.length ≠ 0)
    (hids : ∀ e ∈ es, strOr e.id "" ≠ "")
    (hfail : ∀ j, callOk (env.oddsCall j) = false) :
    (fetchAndCacheOdds env).2.ok = true ∧
    (fetchAndCacheOdds env).2.count = some 0 ∧
    (fetchAndCacheOdds env).2.errors = some es.length := by
  have hc := countSucc_all_fail env es 0 hids hfail
  have hl := processEvents_lengths env es.length es 0
  simp [fetchAndCacheOdds, hkey, hdb, hev, hne, hl.1, hl.2, hc.1, hc.2]

/-- Witness for C10: the concrete all-failing two-event run returns
ok true, count 0, errors 2. -/
theorem ok_true_despite_all_failures_witness :
    (fetchAndCacheOdds envC10).2.ok = true ∧
    (fetchAndCacheOdds envC10).2.count = some 0 ∧
    (fetchAndCacheOdds envC10).2.errors = some 2 :=
  ok_true_despite_all_failures envC10 [evC2a, evC2b] (by decide) rfl rfl
    (by decide) (by decide) (fun _ => rfl)
